import Mathlib

/-!
# GALL — Generic Android Library Loader

A shallow embedding of `src/GALL/jni/GALL.cpp` and the properties of its
load-and-dispatch sequence.

* `std::string` is a list of `char` elements (`Str`). Manifest values reach the
  code as modified UTF-8, which has no zero byte, so `c_str()` loses nothing.
* `size_t` values are natural numbers below `2 ^ w`, `w` being the width of
  `size_t` on the target ABI (32 or 64); subtraction and addition are written
  with an explicit `% 2 ^ w`.
* The host (JNI, `dlopen`, `dlsym`, `dlerror`) is an injected capability whose
  answers may depend on everything that happened before; every call is recorded
  in a trace together with its answer.
-/

namespace GALL

/-- A `std::string`: the sequence of its `char` elements. -/
abbrev Str := List Char

/-! ## The dependency splitter (GALL.cpp, lines 169-189) -/

/-- The constant `std::string::npos`, the largest `size_t`. -/
def npos (w : Nat) : Nat := 2 ^ w - 1

/-- Index of the first `'|'` in a character sequence, if there is one. -/
def firstBar : Str → Option Nat
  | [] => none
  | c :: cs => if c = '|' then some 0 else (firstBar cs).map (· + 1)

/-- The call `s.find("|", pos)`: the index of the first `'|'` at or after `pos`,
or `npos` when there is none. -/
def find (w : Nat) (s : Str) (pos : Nat) : Nat :=
  match firstBar (s.drop pos) with
  | some i => pos + i
  | none => npos w

/-- The call `s.substr(pos, n)`: at most `n` characters starting at `pos`;
`std::out_of_range` (here `none`) when `pos > s.size()`. -/
def substr (s : Str) (pos n : Nat) : Option Str :=
  if pos ≤ s.length then some ((s.drop pos).take n) else none

/-- The `while (offset != npos)` loop of lines 173-182, one iteration per unit of
fuel. The state is `(offset, lastOffset, dependencies)`; the result is the state
at loop exit, or `none` when the fuel runs out or `substr` throws. -/
def splitLoop (w : Nat) (s : Str) : Nat → Nat → Nat → List Str → Option (Nat × Nat × List Str)
  | 0, _, _, _ => none
  | fuel + 1, offset, lastOffset, dependencies =>
    if offset ≠ npos w then
      match substr s lastOffset ((offset + 2 ^ w - lastOffset) % 2 ^ w) with
      | none => none
      | some token =>
        let lastOffset1 := (offset + 1) % 2 ^ w
        splitLoop w s fuel (find w s lastOffset1) lastOffset1 (dependencies ++ [token])
    else some (offset, lastOffset, dependencies)

/-- The inline dependency split of `ANativeActivity_onCreate` (lines 169-189):
the loop, then the conditional push of the remainder. The loop gets
`s.length + 1` units of fuel. -/
def parseDependencies (w : Nat) (s : Str) : Option (List Str) :=
  match splitLoop w s (s.length + 1) (find w s 0) 0 [] with
  | none => none
  | some (offset, lastOffset, dependencies) =>
    if lastOffset = 0 ∨
        (offset = npos w ∧ lastOffset ≠ (s.length + 2 ^ w - 1) % 2 ^ w) then
      match substr s lastOffset ((s.length + 2 ^ w - lastOffset) % 2 ^ w) with
      | none => none
      | some token => some (dependencies ++ [token])
    else some dependencies

/-- The full split of a string on `'|'`: every segment between delimiters, or
between an end of the string and a delimiter, from left to right, empty ones
included. This is the split the specification describes, not the code. -/
def segments : Str → List Str
  | [] => [[]]
  | c :: cs =>
    if c = '|' then [] :: segments cs
    else
      match segments cs with
      | [] => [[c]]
      | seg :: rest => (c :: seg) :: rest

/-! ## The host, the trace and the load-and-dispatch sequence -/

/-- One observable effect of the loader on its host, with the host's answer. -/
inductive Event
  /-- The JNI call `metaData.getString(key)`; `none` is a `NULL` result. -/
  | getString (key : Str) (value : Option Str)
  /-- The JNI calls of lines 81-103 that map a library name to the absolute path
  `new File(nativeLibraryDir, System.mapLibraryName(name)).getPath()`. -/
  | libraryPath (libraryName path : Str)
  /-- The call `dlopen(path, RTLD_NOW | RTLD_GLOBAL)`; `none` is a `NULL` handle. -/
  | dlopen (path : Str) (handle : Option Nat)
  /-- The call `dlerror()` and the string it returned. -/
  | dlerror (message : Str)
  /-- The call `dlsym(handle, symbol)`; `none` is a `NULL` address. -/
  | dlsym (handle : Nat) (symbol : Str) (address : Option Nat)
  /-- One `LOGE` line: the format string and its `%s` arguments. -/
  | log (format : String) (arguments : List Str)
  /-- A call through the resolved function pointer with its three arguments. -/
  | call (address activity savedState savedStateSize : Nat)
  deriving DecidableEq

/-- The host capability. The answers of the manifest lookup, `dlopen`, `dlerror`
and `dlsym` may depend on the trace of all earlier events, so a host with
internal state (the dynamic linker) is covered; the path of a library is a
function of its name (`nativeLibraryDir` is fixed for the process). -/
structure Host where
  getString : List Event → Str → Option Str
  libraryPath : Str → Str
  dlopen : List Event → Str → Option Nat
  dlerror : List Event → Str
  dlsym : List Event → Nat → Str → Option Nat

/-- Result of a function that may call `exit`: a value and the trace so far, or
the exit status and the trace up to the call of `exit`. -/
inductive Step (α : Type)
  | ok (value : α) (trace : List Event)
  | exit (status : Nat) (trace : List Event)

/-- The function `getMetadata` (lines 41-76). -/
def getMetadata (host : Host) (trace : List Event) (metaName : Str) : Step Str :=
  let valueString := host.getString trace metaName
  let trace1 := trace ++ [Event.getString metaName valueString]
  match valueString with
  | none =>
    Step.exit 1
      (trace1 ++ [Event.log "No meta-data '%s' found in AndroidManifest.xml file" [metaName]])
  | some value => Step.ok value trace1

/-- The function `loadLibrary` (lines 78-122). -/
def loadLibrary (host : Host) (trace : List Event) (libraryName : Str) : Step Nat :=
  let libraryPath := host.libraryPath libraryName
  let trace1 := trace ++ [Event.libraryPath libraryName libraryPath,
    Event.log "Loading %s ('%s')" [libraryName, libraryPath]]
  let handle := host.dlopen trace1 libraryPath
  let trace2 := trace1 ++ [Event.dlopen libraryPath handle]
  match handle with
  | none =>
    let message := host.dlerror trace2
    Step.exit 1
      (trace2 ++ [Event.dlerror message, Event.log "dlopen(\"%s\"): %s" [libraryPath, message]])
  | some h => Step.ok h (trace2 ++ [Event.log "Successfully loaded '%s'" [libraryName]])

/-- The loop `for (i = 0; i < dependencies.size(); i++) loadLibrary(dependencies[i])`
of lines 191-194, as a recursion over the vector from its first element (the
`int` index `i` stays in range for a vector of fewer than `2 ^ 31` elements). -/
def loadDependencies (host : Host) (trace : List Event) : List Str → Step Unit
  | [] => Step.ok () trace
  | dependency :: rest =>
    match loadLibrary host trace dependency with
    | Step.exit status trace1 => Step.exit status trace1
    | Step.ok _ trace1 => loadDependencies host trace1 rest

/-- How a run of the loader ends. -/
inductive Outcome
  /-- The loader called `exit(status)`. -/
  | exited (status : Nat)
  /-- The loader called the target entry point and returned after it. -/
  | returned
  /-- The split produced no result (only for a string too long for `size_t`). -/
  | stuck
  deriving DecidableEq

/-- A complete run: everything that happened, in order, and how it ended. -/
structure Run where
  trace : List Event
  outcome : Outcome

/-- The metadata key of the dependency list. -/
def dependenciesKey : Str := "gall.dependencies".toList

/-- The metadata key of the target library. -/
def targetKey : Str := "gall.target".toList

/-- The symbol looked up in the target library. -/
def entrySymbol : Str := "ANativeActivity_onCreate".toList

/-- The function `ANativeActivity_onCreate` (lines 124-214) from line 167 on. The
`Adding dependency` lines are logged by the split, which makes no other call. -/
def ANativeActivity_onCreate (w : Nat) (host : Host)
    (activity savedState savedStateSize : Nat) : Run :=
  match getMetadata host [] dependenciesKey with
  | Step.exit status trace => ⟨trace, Outcome.exited status⟩
  | Step.ok dependenciesString trace1 =>
    match parseDependencies w dependenciesString with
    | none => ⟨trace1, Outcome.stuck⟩
    | some dependencies =>
      let trace2 := trace1 ++
        dependencies.map (fun d => Event.log "Adding dependency '%s'" [d])
      match loadDependencies host trace2 dependencies with
      | Step.exit status trace => ⟨trace, Outcome.exited status⟩
      | Step.ok _ trace3 =>
        match getMetadata host trace3 targetKey with
        | Step.exit status trace => ⟨trace, Outcome.exited status⟩
        | Step.ok libName trace4 =>
          let trace5 := trace4 ++ [Event.log "Loading Target '%s'" [libName]]
          match loadLibrary host trace5 libName with
          | Step.exit status trace => ⟨trace, Outcome.exited status⟩
          | Step.ok handle trace6 =>
            let address := host.dlsym trace6 handle entrySymbol
            let trace7 := trace6 ++ [Event.dlsym handle entrySymbol address]
            match address with
            | none =>
              ⟨trace7 ++ [Event.log "Undefined symbol ANativeActivity_onCreate" []],
                Outcome.exited 1⟩
            | some f =>
              ⟨trace7 ++ [Event.log "Starting Target!" [],
                  Event.call f activity savedState savedStateSize],
                Outcome.returned⟩

/-! ## Reading a trace -/

/-- A lookup or open that the host answered with `NULL`. -/
def Event.failed : Event → Bool
  | Event.getString _ none => true
  | Event.dlopen _ none => true
  | Event.dlsym _ _ none => true
  | _ => false

/-- A library-open call. -/
def Event.isOpen : Event → Bool
  | Event.dlopen _ _ => true
  | _ => false

/-- A symbol lookup. -/
def Event.isSymbolLookup : Event → Bool
  | Event.dlsym _ _ _ => true
  | _ => false

/-- An invocation of a resolved entry point. -/
def Event.isCall : Event → Bool
  | Event.call _ _ _ _ => true
  | _ => false

/-- An event of the successful loading phase: a metadata lookup that found its
key, a path resolution, an open that returned a handle, or a log line. -/
def Event.plain : Event → Bool
  | Event.getString _ (some _) => true
  | Event.libraryPath _ _ => true
  | Event.dlopen _ (some _) => true
  | Event.log _ _ => true
  | _ => false

/-- The library names handed to `loadLibrary`, in order. -/
def loadNames (trace : List Event) : List Str :=
  trace.filterMap fun e =>
    match e with
    | Event.libraryPath name _ => some name
    | _ => none

/-- The paths handed to `dlopen`, in order. -/
def openedPaths (trace : List Event) : List Str :=
  trace.filterMap fun e =>
    match e with
    | Event.dlopen path _ => some path
    | _ => none

/-- The events of a successful load of the target: the metadata lookup, the
`Loading Target` line and the four events of a successful `loadLibrary`. -/
def targetLoad (host : Host) (target : Str) (handle : Nat) : List Event :=
  [Event.getString targetKey (some target),
   Event.log "Loading Target '%s'" [target],
   Event.libraryPath target (host.libraryPath target),
   Event.log "Loading %s ('%s')" [target, host.libraryPath target],
   Event.dlopen (host.libraryPath target) (some handle),
   Event.log "Successfully loaded '%s'" [target]]

/-- The six shapes a run of `ANativeActivity_onCreate` can have, one per way the
function can end. In each, `events` are the events of the successful phase. -/
inductive RunShape (w : Nat) (host : Host) (activity savedState savedStateSize : Nat) :
    Run → Prop
  /-- The key `gall.dependencies` is absent. -/
  | noDependenciesKey :
      host.getString [] dependenciesKey = none →
      RunShape w host activity savedState savedStateSize
        ⟨[Event.getString dependenciesKey none,
          Event.log "No meta-data '%s' found in AndroidManifest.xml file" [dependenciesKey]],
         Outcome.exited 1⟩
  /-- The split gave no result. -/
  | stuck (d : Str) :
      host.getString [] dependenciesKey = some d →
      parseDependencies w d = none →
      RunShape w host activity savedState savedStateSize
        ⟨[Event.getString dependenciesKey (some d)], Outcome.stuck⟩
  /-- An open failed, of a dependency or of the target. -/
  | openFailed (d : Str) (deps : List Str) (events : List Event) (path message : Str) :
      host.getString [] dependenciesKey = some d →
      parseDependencies w d = some deps →
      (∀ e ∈ events, e.plain = true) →
      RunShape w host activity savedState savedStateSize
        ⟨events ++ [Event.dlopen path none, Event.dlerror message,
          Event.log "dlopen(\"%s\"): %s" [path, message]], Outcome.exited 1⟩
  /-- Every dependency was opened and the key `gall.target` is absent. -/
  | noTargetKey (d : Str) (deps : List Str) (events : List Event) :
      host.getString [] dependenciesKey = some d →
      parseDependencies w d = some deps →
      (∀ e ∈ events, e.plain = true) →
      loadNames events = deps →
      openedPaths events = deps.map host.libraryPath →
      host.getString events targetKey = none →
      RunShape w host activity savedState savedStateSize
        ⟨events ++ [Event.getString targetKey none,
          Event.log "No meta-data '%s' found in AndroidManifest.xml file" [targetKey]],
         Outcome.exited 1⟩
  /-- Everything was opened and the target lacks the entry symbol. -/
  | noEntrySymbol (d : Str) (deps : List Str) (events : List Event) (target : Str)
      (handle : Nat) :
      host.getString [] dependenciesKey = some d →
      parseDependencies w d = some deps →
      (∀ e ∈ events, e.plain = true) →
      loadNames events = deps →
      openedPaths events = deps.map host.libraryPath →
      host.getString events targetKey = some target →
      RunShape w host activity savedState savedStateSize
        ⟨events ++ targetLoad host target handle ++
          [Event.dlsym handle entrySymbol none,
           Event.log "Undefined symbol ANativeActivity_onCreate" []],
         Outcome.exited 1⟩
  /-- Everything was opened and the target entry point was called. -/
  | dispatched (d : Str) (deps : List Str) (events : List Event) (target : Str)
      (handle address : Nat) :
      host.getString [] dependenciesKey = some d →
      parseDependencies w d = some deps →
      (∀ e ∈ events, e.plain = true) →
      loadNames events = deps →
      openedPaths events = deps.map host.libraryPath →
      host.getString events targetKey = some target →
      host.dlopen (events ++ [Event.getString targetKey (some target),
          Event.log "Loading Target '%s'" [target],
          Event.libraryPath target (host.libraryPath target),
          Event.log "Loading %s ('%s')" [target, host.libraryPath target]])
        (host.libraryPath target) = some handle →
      host.dlsym (events ++ targetLoad host target handle) handle entrySymbol =
        some address →
      RunShape w host activity savedState savedStateSize
        ⟨events ++ targetLoad host target handle ++
          [Event.dlsym handle entrySymbol (some address),
           Event.log "Starting Target!" [],
           Event.call address activity savedState savedStateSize],
         Outcome.returned⟩

/-! ## Facts about the splitter -/

theorem segments_ne_nil (r : Str) : segments r ≠ [] := by
  cases r with
  | nil => simp [segments]
  | cons c cs =>
    unfold segments
    split
    · simp
    · split <;> simp

theorem firstBar_none_iff (r : Str) : firstBar r = none ↔ '|' ∉ r := by
  induction r with
  | nil => simp [firstBar]
  | cons c cs ih =>
    unfold firstBar
    by_cases h : c = '|'
    · simp [h]
    · have h2 : ¬ ('|' = c) := fun e => h e.symm
      simp [h, h2, ih]

theorem firstBar_lt (r : Str) (i : Nat) (h : firstBar r = some i) : i < r.length := by
  induction r generalizing i with
  | nil => simp [firstBar] at h
  | cons c cs ih =>
    unfold firstBar at h
    by_cases hc : c = '|'
    · simp [hc] at h
      subst h
      simp
    · simp [hc] at h
      obtain ⟨j, hj, rfl⟩ := h
      have := ih j hj
      simp
      omega

theorem segments_of_firstBar_none (r : Str) (h : firstBar r = none) : segments r = [r] := by
  induction r with
  | nil => simp [segments]
  | cons c cs ih =>
    unfold firstBar at h
    by_cases hc : c = '|'
    · simp [hc] at h
    · simp [hc] at h
      unfold segments
      simp [hc, ih h]

theorem segments_of_firstBar_some (r : Str) (i : Nat) (h : firstBar r = some i) :
    segments r = r.take i :: segments (r.drop (i + 1)) := by
  induction r generalizing i with
  | nil => simp [firstBar] at h
  | cons c cs ih =>
    unfold firstBar at h
    by_cases hc : c = '|'
    · simp [hc] at h
      subst h
      simp [segments, hc]
    · simp [hc] at h
      obtain ⟨j, hj, rfl⟩ := h
      simp [segments, hc, ih j hj]

theorem dropLast_cons_of_ne_nil {α : Type} (a : α) (l : List α) (h : l ≠ []) :
    (a :: l).dropLast = a :: l.dropLast := by
  cases l with
  | nil => exact absurd rfl h
  | cons b t => rfl

theorem getLastD_cons_of_ne_nil {α : Type} (a d : α) (l : List α) (h : l ≠ []) :
    (a :: l).getLastD d = l.getLastD d := by
  cases l with
  | nil => exact absurd rfl h
  | cons b t => rfl

/-- The loop, started at any `lastOffset` inside the string with `offset` the
result of `find` there, ends with `offset = npos`, has pushed every segment of the
remainder but the last, and leaves `lastOffset` at the start of the last segment. -/
theorem splitLoop_spec (w : Nat) (s : Str) (hs : s.length < 2 ^ w) :
    ∀ (fuel lastOffset : Nat) (deps : List Str), lastOffset ≤ s.length →
      s.length - lastOffset < fuel →
      ∃ L, splitLoop w s fuel (find w s lastOffset) lastOffset deps
            = some (npos w, L, deps ++ (segments (s.drop lastOffset)).dropLast)
        ∧ L ≤ s.length
        ∧ lastOffset ≤ L
        ∧ s.drop L = (segments (s.drop lastOffset)).getLastD []
        ∧ (firstBar (s.drop lastOffset) = none → L = lastOffset)
        ∧ (firstBar (s.drop lastOffset) ≠ none → lastOffset < L) := by
  intro fuel
  induction fuel with
  | zero => intro _ _ _ h; omega
  | succ n ih =>
    intro lastOffset deps hle hfuel
    cases hfb : firstBar (s.drop lastOffset) with
    | none =>
      refine ⟨lastOffset, ?_, hle, le_refl _, ?_, ?_, ?_⟩
      · simp [splitLoop, find, hfb, segments_of_firstBar_none _ hfb]
      · simp [segments_of_firstBar_none _ hfb]
      · simp
      · simp
    | some i =>
      have hi := firstBar_lt _ _ hfb
      simp at hi
      have h1 : lastOffset + i + 1 ≤ s.length := by omega
      obtain ⟨L, hL, hLle, hLge, hdrop, -, -⟩ :=
        ih (lastOffset + i + 1) (deps ++ [(s.drop lastOffset).take i]) h1 (by omega)
      have hpos : 0 < 2 ^ w := Nat.pos_of_ne_zero (by positivity)
      have hne : lastOffset + i ≠ npos w := by unfold npos; omega
      have hmod1 : (lastOffset + i + 2 ^ w - lastOffset) % 2 ^ w = i := by
        have : lastOffset + i + 2 ^ w - lastOffset = i + 2 ^ w := by omega
        rw [this, Nat.add_mod_right, Nat.mod_eq_of_lt (by omega)]
      have hmod2 : (lastOffset + i + 1) % 2 ^ w = lastOffset + i + 1 :=
        Nat.mod_eq_of_lt (by omega)
      have hdd : (s.drop lastOffset).drop (i + 1) = s.drop (lastOffset + i + 1) := by
        rw [List.drop_drop, Nat.add_assoc]
      have hseg := segments_of_firstBar_some _ _ hfb
      rw [hdd] at hseg
      have hnn := segments_ne_nil (s.drop (lastOffset + i + 1))
      refine ⟨L, ?_, hLle, by omega, ?_, ?_, ?_⟩
      · rw [hseg, dropLast_cons_of_ne_nil _ _ hnn]
        have hfind : find w s lastOffset = lastOffset + i := by simp [find, hfb]
        rw [hfind, splitLoop]
        simp only [hne, ne_eq, not_false_eq_true, if_true, substr, hle, hmod1, hmod2]
        rw [hL]
        simp
      · rw [hseg, getLastD_cons_of_ne_nil _ _ _ hnn]
        exact hdrop
      · simp
      · intro _; omega

theorem dropLast_append_getLastD {α : Type} (d : α) (l : List α) (h : l ≠ []) :
    l.dropLast ++ [l.getLastD d] = l := by
  induction l with
  | nil => exact absurd rfl h
  | cons a t ih =>
    cases t with
    | nil => rfl
    | cons b u =>
      rw [dropLast_cons_of_ne_nil _ _ (by simp), getLastD_cons_of_ne_nil _ _ _ (by simp),
        List.cons_append, ih (by simp)]

/-- The value computed by the inline splitter, for every string that fits a
`size_t` length. -/
theorem parseDependencies_eq (w : Nat) (s : Str) (hs : s.length < 2 ^ w) :
    parseDependencies w s = some
      (if '|' ∈ s then
        (if ((segments s).getLastD []).length = 1 then (segments s).dropLast else segments s)
       else [s]) := by
  obtain ⟨L, hL, hLle, -, hdrop, hnone, hsome⟩ :=
    splitLoop_spec w s hs (s.length + 1) 0 [] (Nat.zero_le _) (by omega)
  simp only [List.drop_zero, List.nil_append] at hL hdrop hnone hsome
  have hpos : 0 < 2 ^ w := Nat.pos_of_ne_zero (by positivity)
  have hsub : (s.length + 2 ^ w - L) % 2 ^ w = s.length - L := by
    have : s.length + 2 ^ w - L = (s.length - L) + 2 ^ w := by omega
    rw [this, Nat.add_mod_right, Nat.mod_eq_of_lt (by omega)]
  have htake : (s.drop L).take (s.length - L) = s.drop L := by
    apply List.take_of_length_le
    simp
  unfold parseDependencies
  rw [hL]
  by_cases hbar : '|' ∈ s
  · have hfb : firstBar s ≠ none := fun h => (firstBar_none_iff s).mp h hbar
    have hLpos : 0 < L := hsome hfb
    have hlen : ((segments s).getLastD []).length = s.length - L := by
      rw [← hdrop]; simp
    have hm1 : (s.length + 2 ^ w - 1) % 2 ^ w = s.length - 1 := by
      have : s.length + 2 ^ w - 1 = (s.length - 1) + 2 ^ w := by omega
      rw [this, Nat.add_mod_right, Nat.mod_eq_of_lt (by omega)]
    simp only [hbar, if_true, hm1, hlen]
    by_cases h1 : s.length - L = 1
    · have hcond : ¬ (L = 0 ∨ (True ∧ L ≠ s.length - 1)) := by
        intro h
        rcases h with h | ⟨-, h⟩ <;> omega
      simp only [h1, if_true]
      rw [if_neg hcond]
    · have hne : L ≠ s.length - 1 := by omega
      have hL0 : L ≠ 0 := by omega
      simp only [h1, if_false, hL0, false_or, true_and, ne_eq, hne, not_false_eq_true, if_true,
        substr, hLle, hsub, htake]
      rw [hdrop, dropLast_append_getLastD _ _ (segments_ne_nil s)]
  · have hfb : firstBar s = none := (firstBar_none_iff s).mpr hbar
    have hL0 : L = 0 := hnone hfb
    subst hL0
    simp [hbar, substr, Nat.mod_eq_of_lt hs, segments_of_firstBar_none _ hfb]

theorem segments_length (s : Str) : (segments s).length = s.count '|' + 1 := by
  induction s with
  | nil => simp [segments]
  | cons c cs ih =>
    by_cases hc : c = '|'
    · simp [segments, hc, ih]
    · have hne := segments_ne_nil cs
      cases hseg : segments cs with
      | nil => exact absurd hseg hne
      | cons seg rest =>
        rw [hseg] at ih
        simp [segments, hc, hseg, List.count_cons]
        simpa using ih

theorem segments_no_bar (s : Str) : ∀ seg ∈ segments s, '|' ∉ seg := by
  induction s with
  | nil => simp [segments]
  | cons c cs ih =>
    by_cases hc : c = '|'
    · simpa [segments, hc] using ih
    · cases hseg : segments cs with
      | nil => exact absurd hseg (segments_ne_nil cs)
      | cons seg rest =>
        rw [hseg] at ih
        have hc2 : ¬ ('|' = c) := fun e => hc e.symm
        simp [segments, hc, hseg]
        simp at ih
        exact ⟨⟨hc2, ih.1⟩, ih.2⟩

theorem segments_join (s : Str) : List.intercalate ['|'] (segments s) = s := by
  induction s with
  | nil => simp [segments, List.intercalate]
  | cons c cs ih =>
    by_cases hc : c = '|'
    · cases hseg : segments cs with
      | nil => exact absurd hseg (segments_ne_nil cs)
      | cons seg rest =>
        rw [hseg] at ih
        simp [segments, hc, hseg, List.intercalate] at ih ⊢
        exact ih
    · cases hseg : segments cs with
      | nil => exact absurd hseg (segments_ne_nil cs)
      | cons seg rest =>
        rw [hseg] at ih
        cases rest with
        | nil =>
          simp [segments, hc, hseg, List.intercalate] at ih ⊢
          exact ih
        | cons r2 rs =>
          simp [segments, hc, hseg, List.intercalate] at ih ⊢
          exact ih

/-! ## Facts about the load-and-dispatch sequence -/

/-- The two ways `getMetadata` can end. -/
theorem getMetadata_cases (host : Host) (trace : List Event) (metaName : Str) :
    (host.getString trace metaName = none ∧
      getMetadata host trace metaName = Step.exit 1
        (trace ++ [Event.getString metaName none,
          Event.log "No meta-data '%s' found in AndroidManifest.xml file" [metaName]])) ∨
    (∃ value, host.getString trace metaName = some value ∧
      getMetadata host trace metaName =
        Step.ok value (trace ++ [Event.getString metaName (some value)])) := by
  cases h : host.getString trace metaName with
  | none => left; simp [getMetadata, h]
  | some value => right; exact ⟨value, rfl, by simp [getMetadata, h]⟩

/-- The two ways `loadLibrary` can end. -/
theorem loadLibrary_cases (host : Host) (trace : List Event) (libraryName : Str) :
    (∃ message, loadLibrary host trace libraryName = Step.exit 1
        (trace ++ [Event.libraryPath libraryName (host.libraryPath libraryName),
            Event.log "Loading %s ('%s')" [libraryName, host.libraryPath libraryName]] ++
          [Event.dlopen (host.libraryPath libraryName) none, Event.dlerror message,
            Event.log "dlopen(\"%s\"): %s" [host.libraryPath libraryName, message]])) ∨
    (∃ h, loadLibrary host trace libraryName = Step.ok h
        (trace ++ [Event.libraryPath libraryName (host.libraryPath libraryName),
          Event.log "Loading %s ('%s')" [libraryName, host.libraryPath libraryName],
          Event.dlopen (host.libraryPath libraryName) (some h),
          Event.log "Successfully loaded '%s'" [libraryName]])) := by
  cases h : host.dlopen (trace ++ [Event.libraryPath libraryName (host.libraryPath libraryName),
      Event.log "Loading %s ('%s')" [libraryName, host.libraryPath libraryName]])
      (host.libraryPath libraryName) with
  | none =>
    left
    exact ⟨host.dlerror (trace ++ [Event.libraryPath libraryName (host.libraryPath libraryName),
      Event.log "Loading %s ('%s')" [libraryName, host.libraryPath libraryName],
      Event.dlopen (host.libraryPath libraryName) none]), by simp [loadLibrary, h]⟩
  | some handle =>
    right
    exact ⟨handle, by simp [loadLibrary, h]⟩

/-- A handle returned by `loadLibrary` is the answer of the host to the `dlopen`
of the library's path. -/
theorem loadLibrary_ok_dlopen (host : Host) (trace : List Event) (libraryName : Str)
    (h : Nat) (trace1 : List Event)
    (hl : loadLibrary host trace libraryName = Step.ok h trace1) :
    host.dlopen (trace ++ [Event.libraryPath libraryName (host.libraryPath libraryName),
      Event.log "Loading %s ('%s')" [libraryName, host.libraryPath libraryName]])
      (host.libraryPath libraryName) = some h := by
  cases hopen : host.dlopen (trace ++
      [Event.libraryPath libraryName (host.libraryPath libraryName),
        Event.log "Loading %s ('%s')" [libraryName, host.libraryPath libraryName]])
      (host.libraryPath libraryName) with
  | none => simp [loadLibrary, hopen] at hl
  | some handle =>
    simp [loadLibrary, hopen] at hl
    rw [hl.1]

/-- The two ways the dependency loop can end: every dependency opened, in order,
or one open failed after the earlier ones succeeded. -/
theorem loadDependencies_cases (host : Host) (dependencies : List Str) :
    ∀ trace : List Event,
    (∃ events, loadDependencies host trace dependencies = Step.ok () (trace ++ events) ∧
      (∀ e ∈ events, e.plain = true) ∧ loadNames events = dependencies ∧
      openedPaths events = dependencies.map host.libraryPath) ∨
    (∃ events path message, loadDependencies host trace dependencies = Step.exit 1
        (trace ++ events ++ [Event.dlopen path none, Event.dlerror message,
          Event.log "dlopen(\"%s\"): %s" [path, message]]) ∧
      (∀ e ∈ events, e.plain = true)) := by
  induction dependencies with
  | nil =>
    intro trace
    left
    exact ⟨[], by simp [loadDependencies], by simp, rfl, rfl⟩
  | cons d ds ih =>
    intro trace
    rcases loadLibrary_cases host trace d with ⟨m, hm⟩ | ⟨h, hh⟩
    · right
      refine ⟨[Event.libraryPath d (host.libraryPath d),
        Event.log "Loading %s ('%s')" [d, host.libraryPath d]], host.libraryPath d, m, ?_, ?_⟩
      · simp [loadDependencies, hm]
      · simp [Event.plain]
    · rcases ih (trace ++ [Event.libraryPath d (host.libraryPath d),
          Event.log "Loading %s ('%s')" [d, host.libraryPath d],
          Event.dlopen (host.libraryPath d) (some h),
          Event.log "Successfully loaded '%s'" [d]]) with
        ⟨events, hev, hplain, hnames, hpaths⟩ | ⟨events, path, message, hev, hplain⟩
      · left
        refine ⟨[Event.libraryPath d (host.libraryPath d),
          Event.log "Loading %s ('%s')" [d, host.libraryPath d],
          Event.dlopen (host.libraryPath d) (some h),
          Event.log "Successfully loaded '%s'" [d]] ++ events, ?_, ?_, ?_, ?_⟩
        · simp [loadDependencies, hh, hev]
        · intro e he
          rcases List.mem_append.mp he with he | he
          · simp at he
            rcases he with rfl | rfl | rfl | rfl <;> rfl
          · exact hplain e he
        · simp only [loadNames, List.filterMap_append] at hnames ⊢
          rw [hnames]
          rfl
        · simp only [openedPaths, List.filterMap_append] at hpaths ⊢
          rw [hpaths]
          rfl
      · right
        refine ⟨[Event.libraryPath d (host.libraryPath d),
          Event.log "Loading %s ('%s')" [d, host.libraryPath d],
          Event.dlopen (host.libraryPath d) (some h),
          Event.log "Successfully loaded '%s'" [d]] ++ events, path, message, ?_, ?_⟩
        · simp [loadDependencies, hh, hev]
        · intro e he
          rcases List.mem_append.mp he with he | he
          · simp at he
            rcases he with rfl | rfl | rfl | rfl <;> rfl
          · exact hplain e he

theorem plain_addingLogs (deps : List Str) :
    ∀ e ∈ deps.map (fun d => Event.log "Adding dependency '%s'" [d]), e.plain = true := by
  intro e he
  obtain ⟨d, -, rfl⟩ := List.mem_map.mp he
  rfl

theorem loadNames_addingLogs (deps : List Str) :
    loadNames (deps.map (fun d => Event.log "Adding dependency '%s'" [d])) = [] := by
  induction deps with
  | nil => rfl
  | cons d ds _ => simp [loadNames]

theorem openedPaths_addingLogs (deps : List Str) :
    openedPaths (deps.map (fun d => Event.log "Adding dependency '%s'" [d])) = [] := by
  induction deps with
  | nil => rfl
  | cons d ds _ => simp [openedPaths]

/-- Every run of `ANativeActivity_onCreate` has one of the six shapes. -/
theorem run_shape (w : Nat) (host : Host) (activity savedState savedStateSize : Nat) :
    RunShape w host activity savedState savedStateSize
      (ANativeActivity_onCreate w host activity savedState savedStateSize) := by
  unfold ANativeActivity_onCreate
  rcases getMetadata_cases host [] dependenciesKey with ⟨h0, hm⟩ | ⟨d, h0, hm⟩
  · rw [hm]
    exact RunShape.noDependenciesKey h0
  · rw [hm]
    dsimp only
    cases hp : parseDependencies w d with
    | none => exact RunShape.stuck d h0 hp
    | some deps =>
      dsimp only
      have hpre : ∀ e ∈ [] ++ [Event.getString dependenciesKey (some d)] ++
          deps.map (fun d => Event.log "Adding dependency '%s'" [d]), e.plain = true := by
        intro e he
        simp only [List.nil_append, List.mem_append, List.mem_singleton] at he
        rcases he with rfl | he
        · rfl
        · exact plain_addingLogs deps e he
      have hpreN : loadNames ([] ++ [Event.getString dependenciesKey (some d)] ++
          deps.map (fun d => Event.log "Adding dependency '%s'" [d])) = [] := by
        simp only [loadNames, List.filterMap_append] at *
        have := loadNames_addingLogs deps
        simp only [loadNames] at this
        rw [this]
        rfl
      have hpreO : openedPaths ([] ++ [Event.getString dependenciesKey (some d)] ++
          deps.map (fun d => Event.log "Adding dependency '%s'" [d])) = [] := by
        simp only [openedPaths, List.filterMap_append] at *
        have := openedPaths_addingLogs deps
        simp only [openedPaths] at this
        rw [this]
        rfl
      generalize [] ++ [Event.getString dependenciesKey (some d)] ++
          deps.map (fun d => Event.log "Adding dependency '%s'" [d]) = pre at hpre hpreN hpreO ⊢
      rcases loadDependencies_cases host deps pre with
        ⟨events, hev, hplain, hn, ho⟩ | ⟨events, path, message, hev, hplain⟩
      · rw [hev]
        dsimp only
        have hall : ∀ e ∈ pre ++ events, e.plain = true := by
          intro e he
          rcases List.mem_append.mp he with he | he
          · exact hpre e he
          · exact hplain e he
        have hnames : loadNames (pre ++ events) = deps := by
          simp only [loadNames, List.filterMap_append] at hpreN hn ⊢
          rw [hpreN, hn]
          rfl
        have hpaths : openedPaths (pre ++ events) = deps.map host.libraryPath := by
          simp only [openedPaths, List.filterMap_append] at hpreO ho ⊢
          rw [hpreO, ho]
          rfl
        generalize pre ++ events = evs at hall hnames hpaths ⊢
        rcases getMetadata_cases host evs targetKey with ⟨ht, hm2⟩ | ⟨target, ht, hm2⟩
        · rw [hm2]
          exact RunShape.noTargetKey d deps evs h0 hp hall hnames hpaths ht
        · rw [hm2]
          dsimp only
          rcases loadLibrary_cases host (evs ++ [Event.getString targetKey (some target)] ++
              [Event.log "Loading Target '%s'" [target]]) target with ⟨m, hl⟩ | ⟨h, hl⟩
          · rw [hl]
            dsimp only
            have hall2 : ∀ e ∈ evs ++ [Event.getString targetKey (some target),
                Event.log "Loading Target '%s'" [target],
                Event.libraryPath target (host.libraryPath target),
                Event.log "Loading %s ('%s')" [target, host.libraryPath target]],
                e.plain = true := by
              intro e he
              rcases List.mem_append.mp he with he | he
              · exact hall e he
              · simp at he
                rcases he with rfl | rfl | rfl | rfl <;> rfl
            have := @RunShape.openFailed w host activity savedState savedStateSize d deps _
              (host.libraryPath target) m h0 hp hall2
            simpa using this
          · have hopen := loadLibrary_ok_dlopen host _ target h _ hl
            rw [hl]
            dsimp only
            cases hs : host.dlsym (evs ++ [Event.getString targetKey (some target)] ++
                [Event.log "Loading Target '%s'" [target]] ++
                [Event.libraryPath target (host.libraryPath target),
                  Event.log "Loading %s ('%s')" [target, host.libraryPath target],
                  Event.dlopen (host.libraryPath target) (some h),
                  Event.log "Successfully loaded '%s'" [target]]) h entrySymbol with
            | none =>
              have := @RunShape.noEntrySymbol w host activity savedState savedStateSize d deps evs
                target h h0 hp hall hnames hpaths ht
              simpa [targetLoad] using this
            | some f =>
              have := @RunShape.dispatched w host activity savedState savedStateSize d deps evs
                target h f h0 hp hall hnames hpaths ht (by simpa using hopen)
                (by simpa [targetLoad] using hs)
              simpa [targetLoad] using this
      · rw [hev]
        dsimp only
        have hall : ∀ e ∈ pre ++ events, e.plain = true := by
          intro e he
          rcases List.mem_append.mp he with he | he
          · exact hpre e he
          · exact hplain e he
        exact RunShape.openFailed d deps (pre ++ events) path message h0 hp hall

theorem plain_not_failed (e : Event) (h : e.plain = true) : e.failed = false := by
  cases e with
  | getString k v => cases v <;> simp_all [Event.plain, Event.failed]
  | dlopen p v => cases v <;> simp_all [Event.plain, Event.failed]
  | dlsym a b v => cases v <;> simp_all [Event.plain, Event.failed]
  | libraryPath a b => rfl
  | dlerror m => rfl
  | log f a => rfl
  | call a b c d => rfl

theorem plain_not_open_failed (e : Event) (h : e.plain = true) (path : Str) :
    e ≠ Event.dlopen path none := by
  intro he
  subst he
  simp [Event.plain] at h

theorem plain_not_symbolLookup (e : Event) (h : e.plain = true) : e.isSymbolLookup = false := by
  cases e <;> simp_all [Event.plain, Event.isSymbolLookup]

theorem plain_not_call (e : Event) (h : e.plain = true) : e.isCall = false := by
  cases e <;> simp_all [Event.plain, Event.isCall]

/-- A list with a single marked element splits around it in one way only. -/
theorem split_at_marked {α : Type} (P : α → Bool) :
    ∀ (l1 l2 pre post : List α) (x y : α), l1 ++ x :: l2 = pre ++ y :: post →
      (∀ e ∈ l1, P e = false) → (∀ e ∈ l2, P e = false) → P y = true →
      pre = l1 ∧ y = x ∧ post = l2 := by
  intro l1
  induction l1 with
  | nil =>
    intro l2 pre post x y h _ h2 hy
    cases pre with
    | nil =>
      simp at h
      exact ⟨rfl, h.1.symm, h.2.symm⟩
    | cons a pre1 =>
      simp at h
      have hmem : y ∈ l2 := by rw [h.2]; simp
      have := h2 y hmem
      rw [hy] at this
      exact absurd this (by decide)
  | cons a l1 ih =>
    intro l2 pre post x y h h1 h2 hy
    cases pre with
    | nil =>
      simp at h
      have := h1 a (by simp)
      rw [h.1, hy] at this
      exact absurd this (by decide)
    | cons b pre1 =>
      simp at h
      obtain ⟨hab, hrest⟩ := h
      obtain ⟨hp, hyx, hpost⟩ :=
        ih l2 pre1 post x y hrest (fun e he => h1 e (by simp [he])) h2 hy
      exact ⟨by rw [hp, hab], hyx, hpost⟩

theorem filter_isCall_plain (events : List Event) (h : ∀ e ∈ events, e.plain = true) :
    events.filter Event.isCall = [] := by
  induction events with
  | nil => rfl
  | cons a t ih =>
    have ha := plain_not_call a (h a (by simp))
    simp [List.filter, ha, ih (fun e he => h e (by simp [he]))]

theorem filter_isSymbolLookup_plain (events : List Event)
    (h : ∀ e ∈ events, e.plain = true) : events.filter Event.isSymbolLookup = [] := by
  induction events with
  | nil => rfl
  | cons a t ih =>
    have ha := plain_not_symbolLookup a (h a (by simp))
    simp [List.filter, ha, ih (fun e he => h e (by simp [he]))]

theorem loadNames_append (l1 l2 : List Event) :
    loadNames (l1 ++ l2) = loadNames l1 ++ loadNames l2 := by
  simp [loadNames, List.filterMap_append]

theorem openedPaths_append (l1 l2 : List Event) :
    openedPaths (l1 ++ l2) = openedPaths l1 ++ openedPaths l2 := by
  simp [openedPaths, List.filterMap_append]

/-! ## Hosts used to exhibit concrete runs -/

/-- A scripted host: the manifest holds the two given values, libraries live in
`/data/app/lib`, `dlopen` answers as `opens` says and `dlsym` as `symbol` says. -/
def scriptedHost (dependencies target : Option Str) (opens : Str → Option Nat)
    (symbol : Option Nat) : Host where
  getString := fun _ key =>
    if key = dependenciesKey then dependencies
    else if key = targetKey then target
    else none
  libraryPath := fun name => "/data/app/lib/lib".toList ++ name ++ ".so".toList
  dlopen := fun _ path => opens path
  dlerror := fun _ => "library not found".toList
  dlsym := fun _ _ _ => symbol

/-- Dependencies `"libA|libB"`, target `"libC"`; every open returns handle 7 and
the entry symbol resolves to address 9. -/
def hostAllGood : Host :=
  scriptedHost (some "libA|libB".toList) (some "libC".toList) (fun _ => some 7) (some 9)

/-- As `hostAllGood`, but the open of `libB` fails. -/
def hostOpenFails : Host :=
  scriptedHost (some "libA|libB".toList) (some "libC".toList)
    (fun path => if path = "/data/app/lib/liblibB.so".toList then none else some 7) (some 9)

/-- As `hostAllGood`, but the manifest has no `gall.target`. -/
def hostNoTarget : Host :=
  scriptedHost (some "libA|libB".toList) none (fun _ => some 7) (some 9)

/-- As `hostAllGood`, but the target lacks the entry symbol. -/
def hostNoSymbol : Host :=
  scriptedHost (some "libA|libB".toList) (some "libC".toList) (fun _ => some 7) none

/-- The value of `gall.dependencies` is the empty string, the target is `"libC"`
and every open succeeds. -/
def hostEmptyDependencies : Host :=
  scriptedHost (some []) (some "libC".toList) (fun _ => some 7) (some 9)

/-! ## The claims about the splitter -/

/-- C1, evaluated on the code: the split of `"a|b|c"` is `["a", "b"]`; the
one-character final name `"c"` is dropped, so the result is not the three
segments and its length is not the delimiter count plus one. -/
theorem parseDependencies_drops_one_char_final_name :
    parseDependencies 64 "a|b|c".toList = some ["a".toList, "b".toList] ∧
    parseDependencies 64 "a|b|c".toList ≠ some ["a".toList, "b".toList, "c".toList] ∧
    parseDependencies 32 "a|b|c".toList = some ["a".toList, "b".toList] := by
  decide

/-- C2, evaluated on the code: the split of `"a|b|"` is `["a", "b", ""]`; the
empty token after the trailing delimiter is kept. -/
theorem parseDependencies_keeps_trailing_empty_token :
    parseDependencies 64 "a|b|".toList = some ["a".toList, "b".toList, []] ∧
    parseDependencies 64 "a|b|".toList ≠ some ["a".toList, "b".toList] ∧
    parseDependencies 32 "a|b|".toList = some ["a".toList, "b".toList, []] := by
  decide

/-- C4: a non-empty string without `'|'` whose length fits `size_t` is split
into the one-element sequence holding the string itself. -/
theorem parseDependencies_no_delimiter (w : Nat) (s : Str) (_hne : s ≠ [])
    (hbar : '|' ∉ s) (hlen : s.length < 2 ^ w) :
    parseDependencies w s = some [s] := by
  rw [parseDependencies_eq w s hlen]
  simp [hbar]

/-- C4 at `"onlyone"` with a 64-bit `size_t`. -/
theorem parseDependencies_no_delimiter_witness :
    "onlyone".toList ≠ [] ∧ '|' ∉ "onlyone".toList ∧ "onlyone".toList.length < 2 ^ 64 ∧
      parseDependencies 64 "onlyone".toList = some ["onlyone".toList] :=
  ⟨by decide, by decide, by decide,
    parseDependencies_no_delimiter 64 "onlyone".toList (by decide) (by decide) (by decide)⟩

/-- C9: for every string whose length fits `size_t`, the full split `segments`
has one segment more than the string has delimiters, joins back to the string
and has no delimiter inside a segment; and the splitter returns `[s]` when `s`
has no delimiter, the full split without its last segment when `s` has a
delimiter and the last segment has length exactly one, and the full split
otherwise. -/
theorem parseDependencies_characterisation (w : Nat) (s : Str) (hlen : s.length < 2 ^ w) :
    (segments s).length = s.count '|' + 1 ∧
    List.intercalate ['|'] (segments s) = s ∧
    (∀ seg ∈ segments s, '|' ∉ seg) ∧
    ('|' ∉ s → parseDependencies w s = some [s]) ∧
    ('|' ∈ s → ((segments s).getLastD []).length = 1 →
      parseDependencies w s = some (segments s).dropLast) ∧
    ('|' ∈ s → ((segments s).getLastD []).length ≠ 1 →
      parseDependencies w s = some (segments s)) := by
  refine ⟨segments_length s, segments_join s, segments_no_bar s, ?_, ?_, ?_⟩
  · intro h
    rw [parseDependencies_eq w s hlen]
    simp [h]
  · intro h h1
    rw [parseDependencies_eq w s hlen, if_pos h, if_pos h1]
  · intro h h1
    rw [parseDependencies_eq w s hlen, if_pos h, if_neg h1]

/-- C9 at `"ab||c"` with a 32-bit `size_t`: the last segment `"c"` has length one
and is dropped, the internal empty segment is kept. -/
theorem parseDependencies_characterisation_witness :
    "ab||c".toList.length < 2 ^ 32 ∧
    parseDependencies 32 "ab||c".toList = some ["ab".toList, []] ∧
    parseDependencies 32 [] = some [[]] :=
  ⟨by decide,
    by
      have h := (parseDependencies_characterisation 32 "ab||c".toList (by decide)).2.2.2.2.1
        (by decide) (by decide)
      rw [h]
      decide,
    (parseDependencies_characterisation 32 [] (by decide)).2.2.2.1 (by decide)⟩

/-! ## The claims about the load-and-dispatch sequence -/

/-- C6: in every run, a failed `dlopen` (of a dependency or of the target, at any
position) is followed by the `dlerror` call and the diagnostic line only: no
`dlopen` comes after it, the trace has no `dlsym` and no call of an entry point,
and the run ends with `exit(1)`. -/
theorem failed_open_short_circuits (w : Nat) (host : Host)
    (activity savedState savedStateSize : Nat) (pre post : List Event) (path : Str)
    (h : (ANativeActivity_onCreate w host activity savedState savedStateSize).trace =
      pre ++ Event.dlopen path none :: post) :
    (∃ message, post =
      [Event.dlerror message, Event.log "dlopen(\"%s\"): %s" [path, message]]) ∧
    (∀ e ∈ post, e.isOpen = false) ∧
    (∀ e ∈ (ANativeActivity_onCreate w host activity savedState savedStateSize).trace,
      e.isSymbolLookup = false ∧ e.isCall = false) ∧
    (ANativeActivity_onCreate w host activity savedState savedStateSize).outcome =
      Outcome.exited 1 := by
  have hs := run_shape w host activity savedState savedStateSize
  have hmem : Event.dlopen path none ∈
      (ANativeActivity_onCreate w host activity savedState savedStateSize).trace := by
    rw [h]; simp
  generalize ANativeActivity_onCreate w host activity savedState savedStateSize = r
    at hs h hmem ⊢
  cases hs with
  | noDependenciesKey h0 => simp at hmem
  | stuck d h0 hp => simp at hmem
  | noTargetKey d deps events h0 hp hplain hn ho ht =>
    simp at hmem
    exact absurd rfl (plain_not_open_failed _ (hplain _ hmem) path)
  | noEntrySymbol d deps events target handle h0 hp hplain hn ho ht =>
    simp [targetLoad] at hmem
    exact absurd rfl (plain_not_open_failed _ (hplain _ hmem) path)
  | dispatched d deps events target handle address h0 hp hplain hn ho ht =>
    simp [targetLoad] at hmem
    exact absurd rfl (plain_not_open_failed _ (hplain _ hmem) path)
  | openFailed d deps events path1 message h0 hp hplain =>
    dsimp only at h ⊢
    obtain ⟨-, hy, hpost⟩ := split_at_marked Event.failed events
      [Event.dlerror message, Event.log "dlopen(\"%s\"): %s" [path1, message]] pre post
      (Event.dlopen path1 none) (Event.dlopen path none) h
      (fun e he => plain_not_failed e (hplain e he)) (by simp [Event.failed]) rfl
    injection hy with hpath
    subst hpath
    subst hpost
    refine ⟨⟨message, rfl⟩, ?_, ?_, rfl⟩
    · intro e he
      simp at he
      rcases he with rfl | rfl <;> rfl
    · intro e he
      rcases List.mem_append.mp he with he | he
      · exact ⟨plain_not_symbolLookup e (hplain e he), plain_not_call e (hplain e he)⟩
      · simp at he
        rcases he with rfl | rfl | rfl <;> exact ⟨rfl, rfl⟩

/-- C3, as the code behaves: the split of the empty string is the one-element
sequence holding the empty token, and a run whose `gall.dependencies` value is
the empty string starts by loading the library of the empty name: the path
resolution and the `dlopen` for it come right after the lookup and the
`Adding dependency` line. -/
theorem empty_string_yields_one_empty_token (w : Nat) (host : Host)
    (activity savedState savedStateSize : Nat)
    (hd : host.getString [] dependenciesKey = some []) :
    parseDependencies w [] = some [[]] ∧
    ∃ handle rest,
      (ANativeActivity_onCreate w host activity savedState savedStateSize).trace =
        [Event.getString dependenciesKey (some []),
         Event.log "Adding dependency '%s'" [[]],
         Event.libraryPath [] (host.libraryPath []),
         Event.log "Loading %s ('%s')" [[], host.libraryPath []],
         Event.dlopen (host.libraryPath []) handle] ++ rest := by
  have hp : parseDependencies w [] = some [[]] := by
    rw [parseDependencies_eq w [] (by simp)]
    simp
  refine ⟨hp, ?_⟩
  have hm : getMetadata host [] dependenciesKey =
      Step.ok [] [Event.getString dependenciesKey (some [])] := by
    simp [getMetadata, hd]
  unfold ANativeActivity_onCreate
  rw [hm]
  dsimp only
  rw [hp]
  dsimp only [List.map]
  rcases loadLibrary_cases host ([Event.getString dependenciesKey (some [])] ++
      [Event.log "Adding dependency '%s'" [[]]]) [] with ⟨m, hl⟩ | ⟨h, hl⟩
  · simp only [loadDependencies, hl]
    exact ⟨none, [Event.dlerror m,
      Event.log "dlopen(\"%s\"): %s" [host.libraryPath [], m]], by simp⟩
  · simp only [loadDependencies, hl]
    refine ⟨some h, ?_⟩
    obtain ⟨rest0, hrest0⟩ : ∃ rest0, [Event.getString dependenciesKey (some [])] ++
        [Event.log "Adding dependency '%s'" [[]]] ++
        [Event.libraryPath [] (host.libraryPath []),
          Event.log "Loading %s ('%s')" [[], host.libraryPath []],
          Event.dlopen (host.libraryPath []) (some h),
          Event.log "Successfully loaded '%s'" [[]]] =
        [Event.getString dependenciesKey (some []),
          Event.log "Adding dependency '%s'" [[]],
          Event.libraryPath [] (host.libraryPath []),
          Event.log "Loading %s ('%s')" [[], host.libraryPath []],
          Event.dlopen (host.libraryPath []) (some h)] ++ rest0 :=
      ⟨[Event.log "Successfully loaded '%s'" [[]]], rfl⟩
    generalize [Event.getString dependenciesKey (some [])] ++
        [Event.log "Adding dependency '%s'" [[]]] ++
        [Event.libraryPath [] (host.libraryPath []),
          Event.log "Loading %s ('%s')" [[], host.libraryPath []],
          Event.dlopen (host.libraryPath []) (some h),
          Event.log "Successfully loaded '%s'" [[]]] = t at hrest0 ⊢
    rcases getMetadata_cases host t targetKey with ⟨-, hm2⟩ | ⟨target, -, hm2⟩
    · rw [hm2]
      exact ⟨rest0 ++ [Event.getString targetKey none,
        Event.log "No meta-data '%s' found in AndroidManifest.xml file" [targetKey]],
        by simp [hrest0]⟩
    · rw [hm2]
      dsimp only
      rcases loadLibrary_cases host (t ++ [Event.getString targetKey (some target)] ++
          [Event.log "Loading Target '%s'" [target]]) target with ⟨m2, hl2⟩ | ⟨h2, hl2⟩
      · rw [hl2]
        exact ⟨rest0 ++ [Event.getString targetKey (some target),
          Event.log "Loading Target '%s'" [target],
          Event.libraryPath target (host.libraryPath target),
          Event.log "Loading %s ('%s')" [target, host.libraryPath target],
          Event.dlopen (host.libraryPath target) none, Event.dlerror m2,
          Event.log "dlopen(\"%s\"): %s" [host.libraryPath target, m2]],
          by simp [hrest0]⟩
      · rw [hl2]
        dsimp only
        split
        · exact ⟨rest0 ++ targetLoad host target h2 ++
            [Event.dlsym h2 entrySymbol none,
              Event.log "Undefined symbol ANativeActivity_onCreate" []],
            by simp_all [targetLoad]⟩
        · rename_i f hf
          exact ⟨rest0 ++ targetLoad host target h2 ++
            [Event.dlsym h2 entrySymbol (some f),
              Event.log "Starting Target!" [],
              Event.call f activity savedState savedStateSize],
            by simp_all [targetLoad]⟩

/-- C7: in every run in which no lookup and no open failed, with the value of
`gall.dependencies` fitting `size_t`, the loader looks up
`ANativeActivity_onCreate` in the handle the host returned for the `dlopen` of
the target (the library named by `gall.target`), this is the only symbol lookup
of the run, and the address the host returned for it is called exactly once, as
the last event, with the activity, saved-state pointer and saved-state size the
loader received; then the loader returns. -/
theorem dispatch_once_with_received_arguments (w : Nat) (host : Host)
    (activity savedState savedStateSize : Nat)
    (d : Str) (hd : host.getString [] dependenciesKey = some d) (hlen : d.length < 2 ^ w)
    (hall : ∀ e ∈ (ANativeActivity_onCreate w host activity savedState savedStateSize).trace,
      e.failed = false) :
    ∃ events target handle address,
      (ANativeActivity_onCreate w host activity savedState savedStateSize).trace =
        events ++
        [Event.getString targetKey (some target),
         Event.log "Loading Target '%s'" [target],
         Event.libraryPath target (host.libraryPath target),
         Event.log "Loading %s ('%s')" [target, host.libraryPath target],
         Event.dlopen (host.libraryPath target) (some handle),
         Event.log "Successfully loaded '%s'" [target],
         Event.dlsym handle entrySymbol (some address),
         Event.log "Starting Target!" [],
         Event.call address activity savedState savedStateSize] ∧
      (∀ e ∈ events, e.plain = true) ∧
      host.getString events targetKey = some target ∧
      host.dlopen (events ++ [Event.getString targetKey (some target),
          Event.log "Loading Target '%s'" [target],
          Event.libraryPath target (host.libraryPath target),
          Event.log "Loading %s ('%s')" [target, host.libraryPath target]])
        (host.libraryPath target) = some handle ∧
      host.dlsym (events ++ [Event.getString targetKey (some target),
          Event.log "Loading Target '%s'" [target],
          Event.libraryPath target (host.libraryPath target),
          Event.log "Loading %s ('%s')" [target, host.libraryPath target],
          Event.dlopen (host.libraryPath target) (some handle),
          Event.log "Successfully loaded '%s'" [target]]) handle entrySymbol =
        some address ∧
      (ANativeActivity_onCreate w host activity savedState savedStateSize).trace.filter
        Event.isCall = [Event.call address activity savedState savedStateSize] ∧
      (ANativeActivity_onCreate w host activity savedState savedStateSize).trace.filter
        Event.isSymbolLookup = [Event.dlsym handle entrySymbol (some address)] ∧
      (ANativeActivity_onCreate w host activity savedState savedStateSize).outcome =
        Outcome.returned := by
  have hs := run_shape w host activity savedState savedStateSize
  generalize ANativeActivity_onCreate w host activity savedState savedStateSize = r
    at hs hall ⊢
  cases hs with
  | noDependenciesKey h0 =>
    rw [hd] at h0
    exact absurd h0 (by simp)
  | stuck d1 h0 hp =>
    rw [hd] at h0
    injection h0 with h0
    subst h0
    rw [parseDependencies_eq w d hlen] at hp
    exact absurd hp (by simp)
  | openFailed d1 deps events path1 message h0 hp hplain =>
    have := hall (Event.dlopen path1 none) (by simp)
    simp [Event.failed] at this
  | noTargetKey d1 deps events h0 hp hplain hn ho ht =>
    have := hall (Event.getString targetKey none) (by simp)
    simp [Event.failed] at this
  | noEntrySymbol d1 deps events target handle1 h0 hp hplain hn ho ht =>
    have := hall (Event.dlsym handle1 entrySymbol none) (by simp)
    simp [Event.failed] at this
  | dispatched d1 deps events target handle1 address1 h0 hp hplain hn ho ht hopen hsym =>
    refine ⟨events, target, handle1, address1, by simp [targetLoad], hplain, ht, hopen,
      hsym, ?_, ?_, rfl⟩
    · simp [targetLoad, List.filter_append, filter_isCall_plain events hplain, List.filter,
        Event.isCall]
    · simp [targetLoad, List.filter_append, filter_isSymbolLookup_plain events hplain,
        List.filter, Event.isSymbolLookup]

/-- C8: whenever a run ends by `exit(status)`, the status is 1 and the trace ends
with the failed host call and its diagnostic line: a missing key and the line
naming that key, or a failed `dlopen`, the `dlerror` call and the line with the
attempted path and the `dlerror` string, or a failed `dlsym` of
`ANativeActivity_onCreate` and the line naming that symbol; and every run in
which a lookup or an open failed ends by `exit(1)`. -/
theorem fatal_exit_status_and_diagnostic (w : Nat) (host : Host)
    (activity savedState savedStateSize : Nat) :
    (∀ status,
      (ANativeActivity_onCreate w host activity savedState savedStateSize).outcome =
        Outcome.exited status →
      status = 1 ∧
      ((∃ events key, (key = dependenciesKey ∨ key = targetKey) ∧
          (ANativeActivity_onCreate w host activity savedState savedStateSize).trace =
            events ++ [Event.getString key none,
              Event.log "No meta-data '%s' found in AndroidManifest.xml file" [key]]) ∨
        (∃ events path message,
          (ANativeActivity_onCreate w host activity savedState savedStateSize).trace =
            events ++ [Event.dlopen path none, Event.dlerror message,
              Event.log "dlopen(\"%s\"): %s" [path, message]]) ∨
        (∃ events handle,
          (ANativeActivity_onCreate w host activity savedState savedStateSize).trace =
            events ++ [Event.dlsym handle entrySymbol none,
              Event.log "Undefined symbol ANativeActivity_onCreate" []]))) ∧
    (∀ e ∈ (ANativeActivity_onCreate w host activity savedState savedStateSize).trace,
      e.failed = true →
      (ANativeActivity_onCreate w host activity savedState savedStateSize).outcome =
        Outcome.exited 1) := by
  have hs := run_shape w host activity savedState savedStateSize
  generalize ANativeActivity_onCreate w host activity savedState savedStateSize = r
    at hs ⊢
  cases hs with
  | noDependenciesKey h0 =>
    refine ⟨fun status hst => ⟨?_, Or.inl ⟨[], dependenciesKey, Or.inl rfl, rfl⟩⟩,
      fun _ _ _ => rfl⟩
    injection hst with hst
    exact hst.symm
  | stuck d h0 hp =>
    refine ⟨fun status hst => ?_, fun e he hf => ?_⟩
    · simp at hst
    · simp at he
      subst he
      simp [Event.failed] at hf
  | openFailed d deps events path1 message h0 hp hplain =>
    refine ⟨fun status hst => ⟨?_, Or.inr (Or.inl ⟨events, path1, message, rfl⟩)⟩,
      fun _ _ _ => rfl⟩
    injection hst with hst
    exact hst.symm
  | noTargetKey d deps events h0 hp hplain hn ho ht =>
    refine ⟨fun status hst => ⟨?_, Or.inl ⟨events, targetKey, Or.inr rfl, rfl⟩⟩,
      fun _ _ _ => rfl⟩
    injection hst with hst
    exact hst.symm
  | noEntrySymbol d deps events target handle1 h0 hp hplain hn ho ht =>
    refine ⟨fun status hst => ⟨?_, Or.inr (Or.inr ⟨events ++ targetLoad host target handle1,
      handle1, rfl⟩)⟩, fun _ _ _ => rfl⟩
    injection hst with hst
    exact hst.symm
  | dispatched d deps events target handle1 address1 h0 hp hplain hn ho ht =>
    refine ⟨fun status hst => ?_, fun e he hf => ?_⟩
    · simp at hst
    · exfalso
      simp [targetLoad] at he
      rcases he with he | rfl | rfl | rfl | rfl | rfl | rfl | rfl | rfl | rfl
      · have := plain_not_failed e (hplain e he)
        rw [hf] at this
        exact absurd this (by decide)
      all_goals simp [Event.failed] at hf

/-- C5: in every run in which no lookup and no open failed, with the value of
`gall.dependencies` fitting `size_t`, the library names handed to `loadLibrary`
are the parsed dependency tokens in their parsed order followed by the value of
`gall.target`, the paths handed to `dlopen` are their paths in the same order,
and the run reaches the call of the target. -/
theorem load_order (w : Nat) (host : Host) (activity savedState savedStateSize : Nat)
    (d : Str) (hd : host.getString [] dependenciesKey = some d) (hlen : d.length < 2 ^ w)
    (hall : ∀ e ∈ (ANativeActivity_onCreate w host activity savedState savedStateSize).trace,
      e.failed = false) :
    ∃ deps target, parseDependencies w d = some deps ∧
      Event.getString targetKey (some target) ∈
        (ANativeActivity_onCreate w host activity savedState savedStateSize).trace ∧
      loadNames (ANativeActivity_onCreate w host activity savedState savedStateSize).trace =
        deps ++ [target] ∧
      openedPaths (ANativeActivity_onCreate w host activity savedState savedStateSize).trace =
        (deps ++ [target]).map host.libraryPath ∧
      (ANativeActivity_onCreate w host activity savedState savedStateSize).outcome =
        Outcome.returned := by
  have hs := run_shape w host activity savedState savedStateSize
  generalize ANativeActivity_onCreate w host activity savedState savedStateSize = r
    at hs hall ⊢
  cases hs with
  | noDependenciesKey h0 =>
    rw [hd] at h0
    exact absurd h0 (by simp)
  | stuck d1 h0 hp =>
    rw [hd] at h0
    injection h0 with h0
    subst h0
    rw [parseDependencies_eq w d hlen] at hp
    exact absurd hp (by simp)
  | openFailed d1 deps events path1 message h0 hp hplain =>
    have := hall (Event.dlopen path1 none) (by simp)
    simp [Event.failed] at this
  | noTargetKey d1 deps events h0 hp hplain hn ho ht =>
    have := hall (Event.getString targetKey none) (by simp)
    simp [Event.failed] at this
  | noEntrySymbol d1 deps events target handle1 h0 hp hplain hn ho ht =>
    have := hall (Event.dlsym handle1 entrySymbol none) (by simp)
    simp [Event.failed] at this
  | dispatched d1 deps events target handle1 address1 h0 hp hplain hn ho ht =>
    rw [hd] at h0
    injection h0 with h0
    subst h0
    refine ⟨deps, target, hp, by simp [targetLoad], ?_, ?_, rfl⟩
    · dsimp only
      rw [loadNames_append, loadNames_append, hn]
      simp [loadNames, targetLoad]
    · dsimp only
      rw [openedPaths_append, openedPaths_append, ho]
      simp [openedPaths, targetLoad]

/-- C5 on `hostAllGood` with a 64-bit `size_t`: dependencies `"libA|libB"` and
target `"libC"` give the load sequence libA, libB, libC. -/
theorem load_order_witness :
    hostAllGood.getString [] dependenciesKey = some "libA|libB".toList ∧
    "libA|libB".toList.length < 2 ^ 64 ∧
    (∃ deps target, parseDependencies 64 "libA|libB".toList = some deps ∧
      Event.getString targetKey (some target) ∈
        (ANativeActivity_onCreate 64 hostAllGood 1 2 3).trace ∧
      loadNames (ANativeActivity_onCreate 64 hostAllGood 1 2 3).trace = deps ++ [target] ∧
      openedPaths (ANativeActivity_onCreate 64 hostAllGood 1 2 3).trace =
        (deps ++ [target]).map hostAllGood.libraryPath ∧
      (ANativeActivity_onCreate 64 hostAllGood 1 2 3).outcome = Outcome.returned) ∧
    loadNames (ANativeActivity_onCreate 64 hostAllGood 1 2 3).trace =
      ["libA".toList, "libB".toList, "libC".toList] :=
  ⟨by decide, by decide,
    load_order 64 hostAllGood 1 2 3 "libA|libB".toList (by decide) (by decide) (by decide),
    by decide⟩

/-- C6 on `hostOpenFails`: the open of `libB` is the tenth event; after it come
the `dlerror` call and the diagnostic line, and `libC` is never opened. -/
theorem failed_open_short_circuits_witness :
    (ANativeActivity_onCreate 64 hostOpenFails 1 2 3).trace =
      (ANativeActivity_onCreate 64 hostOpenFails 1 2 3).trace.take 9 ++
        Event.dlopen "/data/app/lib/liblibB.so".toList none ::
          (ANativeActivity_onCreate 64 hostOpenFails 1 2 3).trace.drop 10 ∧
    (∀ e ∈ (ANativeActivity_onCreate 64 hostOpenFails 1 2 3).trace.drop 10,
      e.isOpen = false) ∧
    (ANativeActivity_onCreate 64 hostOpenFails 1 2 3).outcome = Outcome.exited 1 ∧
    openedPaths (ANativeActivity_onCreate 64 hostOpenFails 1 2 3).trace =
      ["/data/app/lib/liblibA.so".toList, "/data/app/lib/liblibB.so".toList] :=
  ⟨by decide,
    (failed_open_short_circuits 64 hostOpenFails 1 2 3
      ((ANativeActivity_onCreate 64 hostOpenFails 1 2 3).trace.take 9)
      ((ANativeActivity_onCreate 64 hostOpenFails 1 2 3).trace.drop 10)
      "/data/app/lib/liblibB.so".toList (by decide)).2.1,
    (failed_open_short_circuits 64 hostOpenFails 1 2 3
      ((ANativeActivity_onCreate 64 hostOpenFails 1 2 3).trace.take 9)
      ((ANativeActivity_onCreate 64 hostOpenFails 1 2 3).trace.drop 10)
      "/data/app/lib/liblibB.so".toList (by decide)).2.2.2,
    by decide⟩

/-- C7 on `hostAllGood` called with activity 1, saved state 2 and size 3: the
symbol is looked up in handle 7 and the address 9 found there is called once
with `(1, 2, 3)`. -/
theorem dispatch_once_with_received_arguments_witness :
    hostAllGood.getString [] dependenciesKey = some "libA|libB".toList ∧
    "libA|libB".toList.length < 2 ^ 64 ∧
    (∀ e ∈ (ANativeActivity_onCreate 64 hostAllGood 1 2 3).trace, e.failed = false) ∧
    (ANativeActivity_onCreate 64 hostAllGood 1 2 3).trace.filter Event.isSymbolLookup =
      [Event.dlsym 7 entrySymbol (some 9)] ∧
    (ANativeActivity_onCreate 64 hostAllGood 1 2 3).trace.filter Event.isCall =
      [Event.call 9 1 2 3] ∧
    (ANativeActivity_onCreate 64 hostAllGood 1 2 3).outcome = Outcome.returned :=
  ⟨by decide, by decide, by decide, by decide, by decide,
    by
      obtain ⟨_, _, _, _, _, _, _, _, _, _, _, hout⟩ :=
        dispatch_once_with_received_arguments 64 hostAllGood 1 2 3 "libA|libB".toList
          (by decide) (by decide) (by decide)
      exact hout⟩

/-- C8 on three hosts: a missing `gall.target`, a failed open and a missing
entry symbol each end by `exit(1)`. -/
theorem fatal_exit_status_and_diagnostic_witness :
    (ANativeActivity_onCreate 64 hostNoTarget 1 2 3).outcome = Outcome.exited 1 ∧
    (ANativeActivity_onCreate 64 hostOpenFails 1 2 3).outcome = Outcome.exited 1 ∧
    (ANativeActivity_onCreate 64 hostNoSymbol 1 2 3).outcome = Outcome.exited 1 :=
  ⟨(fatal_exit_status_and_diagnostic 64 hostNoTarget 1 2 3).2
      (Event.getString targetKey none) (by decide) rfl,
    (fatal_exit_status_and_diagnostic 64 hostOpenFails 1 2 3).2
      (Event.dlopen "/data/app/lib/liblibB.so".toList none) (by decide) rfl,
    (fatal_exit_status_and_diagnostic 64 hostNoSymbol 1 2 3).2
      (Event.dlsym 7 entrySymbol none) (by decide) rfl⟩

/-- C10: in every run in which `gall.dependencies` is present with a value
fitting `size_t`, no open fails and the host has no `gall.target`, the trace is
the successful loading phase followed by the failed target lookup and its
diagnostic line; the loading phase hands every parsed dependency token, in
order, to `loadLibrary` and its path to `dlopen`, and the run ends by `exit(1)`. -/
theorem target_lookup_after_dependencies (w : Nat) (host : Host)
    (activity savedState savedStateSize : Nat)
    (d : Str) (hd : host.getString [] dependenciesKey = some d) (hlen : d.length < 2 ^ w)
    (hopen : ∀ e ∈ (ANativeActivity_onCreate w host activity savedState savedStateSize).trace,
      e.isOpen = true → e.failed = false)
    (htarget : ∀ trace, host.getString trace targetKey = none) :
    ∃ deps events, parseDependencies w d = some deps ∧
      (ANativeActivity_onCreate w host activity savedState savedStateSize).trace =
        events ++ [Event.getString targetKey none,
          Event.log "No meta-data '%s' found in AndroidManifest.xml file" [targetKey]] ∧
      loadNames events = deps ∧
      openedPaths events = deps.map host.libraryPath ∧
      (∀ e ∈ events, e.failed = false) ∧
      (ANativeActivity_onCreate w host activity savedState savedStateSize).outcome =
        Outcome.exited 1 := by
  have hs := run_shape w host activity savedState savedStateSize
  generalize ANativeActivity_onCreate w host activity savedState savedStateSize = r
    at hs hopen ⊢
  cases hs with
  | noDependenciesKey h0 =>
    rw [hd] at h0
    exact absurd h0 (by simp)
  | stuck d1 h0 hp =>
    rw [hd] at h0
    injection h0 with h0
    subst h0
    rw [parseDependencies_eq w d hlen] at hp
    exact absurd hp (by simp)
  | openFailed d1 deps events path1 message h0 hp hplain =>
    have := hopen (Event.dlopen path1 none) (by simp) rfl
    simp [Event.failed] at this
  | noTargetKey d1 deps events h0 hp hplain hn ho ht =>
    rw [hd] at h0
    injection h0 with h0
    subst h0
    exact ⟨deps, events, hp, rfl, hn, ho, fun e he => plain_not_failed e (hplain e he), rfl⟩
  | noEntrySymbol d1 deps events target handle1 h0 hp hplain hn ho ht =>
    rw [htarget] at ht
    exact absurd ht (by simp)
  | dispatched d1 deps events target handle1 address1 h0 hp hplain hn ho ht =>
    rw [htarget] at ht
    exact absurd ht (by simp)

/-- C10 on `hostNoTarget`: `libA` and `libB` are opened, then the lookup of
`gall.target` fails. -/
theorem target_lookup_after_dependencies_witness :
    hostNoTarget.getString [] dependenciesKey = some "libA|libB".toList ∧
    "libA|libB".toList.length < 2 ^ 64 ∧
    (∃ deps events, parseDependencies 64 "libA|libB".toList = some deps ∧
      (ANativeActivity_onCreate 64 hostNoTarget 1 2 3).trace =
        events ++ [Event.getString targetKey none,
          Event.log "No meta-data '%s' found in AndroidManifest.xml file" [targetKey]] ∧
      loadNames events = deps ∧
      openedPaths events = deps.map hostNoTarget.libraryPath ∧
      (∀ e ∈ events, e.failed = false) ∧
      (ANativeActivity_onCreate 64 hostNoTarget 1 2 3).outcome = Outcome.exited 1) ∧
    openedPaths (ANativeActivity_onCreate 64 hostNoTarget 1 2 3).trace =
      ["/data/app/lib/liblibA.so".toList, "/data/app/lib/liblibB.so".toList] :=
  ⟨by decide, by decide,
    target_lookup_after_dependencies 64 hostNoTarget 1 2 3 "libA|libB".toList
      (by decide) (by decide) (by decide) (fun _ => rfl),
    by decide⟩

/-- C3 fails on the code: the split of the empty string is not the empty
sequence, and with `gall.dependencies` empty a library of the empty name is
handed to `loadLibrary` before the target. -/
theorem empty_string_not_empty_sequence :
    parseDependencies 64 [] ≠ some [] ∧
    parseDependencies 64 [] = some [[]] ∧
    loadNames (ANativeActivity_onCreate 64 hostEmptyDependencies 1 2 3).trace =
      [[], "libC".toList] := by
  decide

/-- C3 as amended, on `hostEmptyDependencies` with a 64-bit `size_t`. -/
theorem empty_string_yields_one_empty_token_witness :
    hostEmptyDependencies.getString [] dependenciesKey = some [] ∧
    parseDependencies 64 [] = some [[]] ∧
    ∃ handle rest,
      (ANativeActivity_onCreate 64 hostEmptyDependencies 1 2 3).trace =
        [Event.getString dependenciesKey (some []),
         Event.log "Adding dependency '%s'" [[]],
         Event.libraryPath [] (hostEmptyDependencies.libraryPath []),
         Event.log "Loading %s ('%s')" [[], hostEmptyDependencies.libraryPath []],
         Event.dlopen (hostEmptyDependencies.libraryPath []) handle] ++ rest :=
  ⟨by decide, empty_string_yields_one_empty_token 64 hostEmptyDependencies 1 2 3 (by decide)⟩

end GALL
